import Mathlib

/-!
Verification of the dubbo-js provider-side server engine
(`packages/dubbo/src/server/dubbo-server.ts`): the request dispatch
pipeline, service routing table, middleware composition, registry URL
publication and per-connection frame handling, shallowly embedded in Lean.
-/

namespace DubboSrv

/-- JavaScript runtime values carried through the pipeline: arguments,
method return values and thrown errors. -/
inductive Value where
  | vnull
  | vstr (s : String)
  | vint (n : Int)
  | vbool (b : Bool)
  | verr (msg : String)
deriving DecidableEq, Repr

/-- Modelled from the spec: status enum of the ResponseContext
(`response-context.ts` is not part of the provided sources):
`OK | SERVICE_NOT_FOUND | SERVER_ERROR`. -/
inductive ResponseStatus where
  | OK
  | SERVICE_NOT_FOUND
  | SERVER_ERROR
deriving DecidableEq, Repr

/-- The `{res, err}` body of a ResponseContext; `none` models a JS field
that is `null`/`undefined` (not meaningfully populated). -/
structure Body where
  res : Option Value
  err : Option Value
deriving DecidableEq, Repr

/-- The request attachment: `path` is the interface identity; `group` and
`version` are `none` when the attachment omits them (JS `undefined`). -/
structure Attachment where
  path : String
  group : Option String
  version : Option String
deriving DecidableEq, Repr

/-- A decoded incoming dubbo request (output of `decodeDubboRequest`).
`args` is `none` when the decoded request carries no argument array
(the source guards with `request.args || []`). -/
structure Request where
  methodName : String
  args : Option (List Value)
  attachment : Attachment
deriving DecidableEq, Repr

/-- Modelled from the spec: the per-request ResponseContext
(`response-context.ts` is not part of the provided sources) — status plus
a `{result, error}` body, created fresh per request with status unset and
an empty body. -/
structure ResponseContext where
  request : Request
  status : Option ResponseStatus
  body : Body
deriving DecidableEq, Repr

/-- Modelled from the spec: a ResponseContext is created fresh per
request; its status starts default/unset and its body empty. -/
def ResponseContext.new (req : Request) : ResponseContext :=
  { request := req, status := none, body := { res := none, err := none } }

/-- A service method handler. The source invokes
`method.apply(service, [...(request.args || []), ctx])`: the method
receives the request's argument sequence followed by the context. Here
the argument sequence and the context are the two parameters; a thrown
JS error is an `Except.error`. -/
def Method := List Value → ResponseContext → Except Value Value

/-- A service as supplied to the server constructor (`IDubboService`):
group and version may be absent before registration normalizes them. -/
structure IDubboService where
  dubboInterface : String
  group : Option String
  version : Option String
  methods : List (String × Method)

/-- A registered service after `registerServices` applied the
group/version defaults (the source mutates the service object in place). -/
structure RegService where
  dubboInterface : String
  group : String
  version : String
  methods : List (String × Method)

/-- Property access `service.methods[methodName]` on the method table. -/
def lookupMethod : List (String × Method) → String → Option Method
  | [], _ => none
  | (k, f) :: rest, name => if k = name then some f else lookupMethod rest name

/-- JS `s || d` on an optional string: both `undefined` and `""` are
falsy, so either yields the default. Used by `registerServices`
(`service.group = service.group || ''` etc.). -/
def jsOr (v : Option String) (d : String) : String :=
  match v with
  | none => d
  | some s => if s = "" then d else s

/-- The in-place normalization done by `registerServices`:
`service.group = service.group || ''; service.version = service.version || '0.0.0'`. -/
def normalizeService (s : IDubboService) : RegService :=
  { dubboInterface := s.dubboInterface
    group := jsOr s.group ""
    version := jsOr s.version "0.0.0"
    methods := s.methods }

/-- The `serviceMap : Map<DubboServiceClazzName, IDubboService>` as an
insertion-ordered association list. -/
def ServiceMap := List (String × RegService)

/-- JS `Map.get`. -/
def mapGet : ServiceMap → String → Option RegService
  | [], _ => none
  | (k0, v0) :: rest, k => if k0 = k then some v0 else mapGet rest k

/-- JS `Map.set`: replaces the value at an existing key in place,
otherwise appends the new entry. -/
def mapSet : ServiceMap → String → RegService → ServiceMap
  | [], k, v => [(k, v)]
  | (k0, v0) :: rest, k, v =>
      if k0 = k then (k, v) :: rest else (k0, v0) :: mapSet rest k v

/-- `matchService` (dubbo-server.ts lines 251-268): destructures
`{path, group = '', version}` from the attachment — the destructuring
default applies only when `group` is `undefined`, and `version` gets no
default — then requires a descriptor for `path` that defines the method
and whose group and version equal the request's. -/
def matchService (serviceMap : ServiceMap) (request : Request) : Option RegService :=
  let methodName := request.methodName
  let group := request.attachment.group.getD ""
  let version := request.attachment.version
  match mapGet serviceMap request.attachment.path with
  | none => none
  | some service =>
      if (lookupMethod service.methods methodName).isNone
          || decide (service.group ≠ group)
          || decide (some service.version ≠ version)
      then none
      else some service

/-- Events observable while the composed chain runs: the code of
middleware `i` before its `next()` call, its code after `next()`
returned, and the terminal invocation stage. -/
inductive Ev where
  | pre (i : Nat)
  | post (i : Nat)
  | term
deriving DecidableEq, Repr

/-- A structured koa middleware `(ctx, next) => ...`: an effect on the
context before `next`, an optional throw before `next`, whether `next`
is called at all, an effect after `next` resolves, and an optional throw
after `next`. -/
structure Mw where
  preF : ResponseContext → ResponseContext
  preThrow : Option Value
  callsNext : Bool
  postF : ResponseContext → ResponseContext
  postThrow : Option Value

/-- Result of running the composed chain: final context, trace of
executed stages, and the error escaping the chain, if any. -/
structure RunResult where
  ctx : ResponseContext
  trace : List Ev
  thrown : Option Value
deriving Repr

/-- The koa-compose onion runner specialized to structured middlewares:
`dispatch(i)` runs middleware `i`'s pre-code, then (if it calls `next`)
the rest of the chain, then its post-code; a rejection propagates
outward skipping all remaining post-code; the terminal stage runs when
every middleware called `next`. -/
def runChain (term : ResponseContext → ResponseContext) :
    List Mw → Nat → ResponseContext → RunResult
  | [], _, ctx => { ctx := term ctx, trace := [Ev.term], thrown := none }
  | m :: rest, i, ctx =>
      let ctx1 := m.preF ctx
      match m.preThrow with
      | some e => { ctx := ctx1, trace := [Ev.pre i], thrown := some e }
      | none =>
          if m.callsNext then
            let r := runChain term rest (i + 1) ctx1
            match r.thrown with
            | some e => { ctx := r.ctx, trace := Ev.pre i :: r.trace, thrown := some e }
            | none =>
                let ctx3 := m.postF r.ctx
                match m.postThrow with
                | some e =>
                    { ctx := ctx3, trace := Ev.pre i :: r.trace ++ [Ev.post i],
                      thrown := some e }
                | none =>
                    { ctx := ctx3, trace := Ev.pre i :: r.trace ++ [Ev.post i],
                      thrown := none }
          else { ctx := ctx1, trace := [Ev.pre i], thrown := none }

/-- The terminal stage `handleRequest` (dubbo-server.ts lines 160-180):
optimistically set status `OK`, call the method with the request's
arguments followed by the context, validate the returned value with
`checkRetValHessian`, and store `{res, err}`. On a validation failure
`res` has already been assigned when the error is thrown, so both fields
end up set. A missing method makes `method.apply` raise a JS TypeError,
which lands in the same catch block. -/
def handleRequest (check : Value → Bool) (service : RegService) (request : Request)
    (ctx : ResponseContext) : ResponseContext :=
  let ctx0 := { ctx with status := some ResponseStatus.OK }
  match lookupMethod service.methods request.methodName with
  | none =>
      { ctx0 with body :=
          { res := none, err := some (Value.verr "method.apply is not a function") } }
  | some f =>
      match f (request.args.getD []) ctx0 with
      | Except.error e =>
          { ctx0 with body := { res := none, err := some e } }
      | Except.ok v =>
          if check v then
            { ctx0 with body := { res := some v, err := none } }
          else
            { ctx0 with body :=
                { res := some v,
                  err := some (Value.verr (request.attachment.path ++ "#" ++
                    request.methodName ++ " return value not hessian type")) } }

/-- JS template-literal interpolation of a possibly-undefined string. -/
def jsDisplay : Option String → String
  | none => "undefined"
  | some s => s

/-- The not-found error message built at dubbo-server.ts lines 152-154. -/
def serviceNotFoundMsg (request : Request) : String :=
  "Service not found with " ++ request.attachment.path ++ " and " ++
    request.methodName ++ ", group:" ++ request.attachment.group.getD "" ++
    ", version:" ++ jsDisplay request.attachment.version

/-- Result of one dispatch: the ResponseContext handed back for encoding
plus the trace of middleware/terminal stages that ran. -/
structure DispatchResult where
  ctx : ResponseContext
  trace : List Ev
deriving Repr

/-- `invokeComposeChainRequest` (dubbo-server.ts lines 139-194): match
the request against the routing table; on no match set
`SERVICE_NOT_FOUND` with a descriptive error and return at once; on a
match compose `[...middlewares, handleRequest]`, run it, and map an
escaping error to `SERVER_ERROR` with `body.err` set to it. -/
def invokeComposeChainRequest (serviceMap : ServiceMap) (middlewares : List Mw)
    (check : Value → Bool) (request : Request) : DispatchResult :=
  let ctx := ResponseContext.new request
  match matchService serviceMap request with
  | none =>
      { ctx := { ctx with
          status := some ResponseStatus.SERVICE_NOT_FOUND,
          body := { ctx.body with err := some (Value.verr (serviceNotFoundMsg request)) } }
        trace := [] }
  | some service =>
      let r := runChain (handleRequest check service request) middlewares 0 ctx
      match r.thrown with
      | none => { ctx := r.ctx, trace := r.trace }
      | some e =>
          { ctx := { r.ctx with
              status := some ResponseStatus.SERVER_ERROR,
              body := { r.ctx.body with err := some e } }
            trace := r.trace }

/-- An argument handed to `use`: either a JS function (a middleware) or
some non-callable value. -/
inductive UseArg where
  | fn (m : Mw)
  | notFn (v : Value)

/-- `use` (dubbo-server.ts lines 294-301): throw a TypeError on a
non-callable argument, otherwise push the middleware onto the
registration list. The error result leaves the caller's list untouched. -/
def use (middlewares : List Mw) (a : UseArg) : Except String (List Mw) :=
  match a with
  | UseArg.notFn _ => Except.error "middleware must be a function"
  | UseArg.fn m => Except.ok (middlewares ++ [m])

/-- Hex digit used by percent-encoding (uppercase, as JS produces). -/
def hexDigit (n : Nat) : Char :=
  if n < 10 then Char.ofNat (48 + n) else Char.ofNat (55 + n)

/-- Characters `encodeURIComponent` leaves unescaped: ASCII
alphanumerics and `- _ . ! ~ * ' ( )`. -/
def isUnreservedChar (c : Char) : Bool :=
  c.isAlphanum || c.toNat = 45 || c.toNat = 95 || c.toNat = 46 || c.toNat = 33 ||
    c.toNat = 126 || c.toNat = 42 || c.toNat = 39 || c.toNat = 40 || c.toNat = 41

/-- `%XX` escape of one byte. -/
def percentByte (b : Nat) : String :=
  "%" ++ String.singleton (hexDigit (b / 16)) ++ String.singleton (hexDigit (b % 16))

/-- JS `encodeURIComponent`: unreserved characters pass through, every
other character is replaced by the `%XX` escapes of its UTF-8 bytes. -/
def encodeURIComponent (s : String) : String :=
  String.join (s.toList.map fun c =>
    if isUnreservedChar c then String.singleton c
    else String.join ((String.singleton c).toUTF8.toList.map fun b => percentByte b.toNat))

/-- `qs.stringify` on an ordered list of string pairs: percent-escape
each key and value, join pairs with `=` and the list with `&`. -/
def qsStringify (pairs : List (String × String)) : String :=
  String.intercalate "&" (pairs.map fun p =>
    encodeURIComponent p.1 ++ "=" ++ encodeURIComponent p.2)

/-- Environment data `buildUrl` reads from outside the service:
`ip.address()`, the bound port, `process.pid` and `Date.now()`. -/
structure UrlEnv where
  ipAddr : String
  port : Nat
  pid : Nat
  timestamp : Nat
deriving DecidableEq, Repr

/-- `buildUrl` (dubbo-server.ts lines 223-244): percent-encode the whole
`dubbo://ip:port/interface?<qs.stringify of the metadata>` string, with
the method names comma-joined (`Object.keys(methods).join()`). -/
def buildUrl (env : UrlEnv) (service : RegService) : String :=
  let methodName := String.intercalate "," (service.methods.map fun p => p.1)
  encodeURIComponent
    ("dubbo://" ++ env.ipAddr ++ ":" ++ toString env.port ++ "/" ++
      service.dubboInterface ++ "?" ++
      qsStringify
        [("group", service.group), ("version", service.version),
         ("method", methodName), ("side", "provider"), ("pid", toString env.pid),
         ("generic", "false"), ("protocal", "dubbo"), ("dynamic", "true"),
         ("category", "providers"), ("anyhost", "true"),
         ("timestamp", toString env.timestamp)])

/-- Modelled from the spec: the canonical provider URL of the Registry
Publisher — a scheme-qualified address `scheme://host:port/interface`
with a percent-encoded query string carrying group, version, the
comma-joined method-name list, a fixed `side=provider` marker, process
identity, a generic-call-disabled flag, the protocol identifier, a
dynamic-registration flag, a fixed `providers` category, an any-host
flag, and a publish timestamp. -/
def specProviderUrl (env : UrlEnv) (s : RegService) : String :=
  let address := "dubbo://" ++ env.ipAddr ++ ":" ++ toString env.port ++ "/" ++ s.dubboInterface
  let methodList := String.intercalate "," (s.methods.map fun p => p.1)
  let query := qsStringify
    [("group", s.group), ("version", s.version), ("method", methodList),
     ("side", "provider"), ("pid", toString env.pid), ("generic", "false"),
     ("protocal", "dubbo"), ("dynamic", "true"), ("category", "providers"),
     ("anyhost", "true"), ("timestamp", toString env.timestamp)]
  encodeURIComponent (address ++ "?" ++ query)

/-- The batch handed to the registry transport:
`{type: 'provider', services: [(interface, url), ...]}`. -/
structure RegistryPayload where
  type : String
  services : List (String × String)

/-- Registration loop body of `registerServices` (dubbo-server.ts lines
199-215): normalize each service in order, `serviceMap.set` it, and
collect its `[dubboInterface, buildUrl(service)]` pair. -/
def registerServicesAux (env : UrlEnv) : List IDubboService → ServiceMap →
    ServiceMap × List (String × String)
  | [], m => (m, [])
  | s :: rest, m =>
      let ns := normalizeService s
      let r := registerServicesAux env rest (mapSet m ns.dubboInterface ns)
      (r.1, (ns.dubboInterface, buildUrl env ns) :: r.2)

/-- `registerServices`: populate the routing table and hand the full
batch to `fromRegistry(this.registry)` in one call. -/
def registerServices (env : UrlEnv) (services : List IDubboService) (m0 : ServiceMap) :
    ServiceMap × RegistryPayload :=
  let r := registerServicesAux env services m0
  (r.1, { type := "provider", services := r.2 })

/-- Modelled from the spec: the per-connection HeartbeatSession state —
`heartbeat.ts` is not part of the provided sources — holding the
last-activity timestamp. -/
structure HeartbeatSession where
  lastActivity : Nat
deriving DecidableEq, Repr

/-- Modelled from the spec: signalling the HeartbeatSession
(`heartbeat.emit()`) records that heartbeat activity occurred and
produces no response frame. -/
def HeartbeatSession.emit (now : Nat) (_s : HeartbeatSession) : HeartbeatSession :=
  { lastActivity := now }

/-- Modelled from the spec: `heartbeat.setWriteTimestamp()` updates the
session's last-outbound-write timestamp. -/
def HeartbeatSession.setWriteTs (now : Nat) (_s : HeartbeatSession) : HeartbeatSession :=
  { lastActivity := now }

/-- A raw protocol frame as delivered by the DecodeBuffer. -/
abbrev Frame := List Nat

/-- Observable effects of handling one frame on a connection. -/
inductive SockEff where
  | heartbeatSignaled
  | dispatched
  | setWriteTimestamp
  | wroteResponse
deriving DecidableEq, Repr

/-- The per-frame body of `handleSocketRequest` (dubbo-server.ts lines
120-131): a frame recognized by `HeartBeat.isHeartBeat` only signals the
session and returns; any other frame is dispatched, the write timestamp
is updated, and the encoded response is written back. `isHeartBeat` and
`decode` are external collaborators passed in. -/
def handleSocketFrame (isHeartBeat : Frame → Bool) (decode : Frame → Request)
    (serviceMap : ServiceMap) (middlewares : List Mw) (check : Value → Bool)
    (now : Nat) (s : HeartbeatSession) (frame : Frame) :
    HeartbeatSession × List SockEff × Option DispatchResult :=
  if isHeartBeat frame then
    (HeartbeatSession.emit now s, [SockEff.heartbeatSignaled], none)
  else
    let r := invokeComposeChainRequest serviceMap middlewares check (decode frame)
    (HeartbeatSession.setWriteTs now s,
      [SockEff.dispatched, SockEff.setWriteTimestamp, SockEff.wroteResponse], some r)

/-- The context transformation of the pre-`next` code of a middleware
list, in registration order. -/
def applyPres : List Mw → ResponseContext → ResponseContext
  | [], c => c
  | m :: ms, c => applyPres ms (m.preF c)

/-- The context transformation of the post-`next` code of a middleware
list, in reverse registration order. -/
def applyPosts : List Mw → ResponseContext → ResponseContext
  | [], c => c
  | m :: ms, c => m.postF (applyPosts ms c)

/-- The pre-`next` events of a middleware list starting at index `i`,
in registration order. -/
def preTrace : List Mw → Nat → List Ev
  | [], _ => []
  | _ :: ms, i => Ev.pre i :: preTrace ms (i + 1)

/-- The post-`next` events of a middleware list starting at index `i`,
in reverse registration order. -/
def postTrace : List Mw → Nat → List Ev
  | [], _ => []
  | _ :: ms, i => postTrace ms (i + 1) ++ [Ev.post i]

/-- A middleware that throws nowhere and always calls `next`. -/
def CleanMw (m : Mw) : Prop :=
  m.preThrow = none ∧ m.postThrow = none ∧ m.callsNext = true

/-- A middleware whose context effects leave the status field alone. -/
def StatusPreserving (m : Mw) : Prop :=
  (∀ c, (m.preF c).status = c.status) ∧ (∀ c, (m.postF c).status = c.status)

/-- A middleware whose pre- and post-code do not modify the context. -/
def InertMw (m : Mw) : Prop :=
  (∀ c, m.preF c = c) ∧ (∀ c, m.postF c = c)

theorem runChain_clean (term : ResponseContext → ResponseContext) (mws : List Mw)
    (h : ∀ m ∈ mws, CleanMw m) (i : Nat) (ctx : ResponseContext) :
    runChain term mws i ctx =
      { ctx := applyPosts mws (term (applyPres mws ctx)),
        trace := preTrace mws i ++ [Ev.term] ++ postTrace mws i,
        thrown := none } := by
  induction mws generalizing i ctx with
  | nil => simp [runChain, applyPres, applyPosts, preTrace, postTrace]
  | cons m ms ih =>
      obtain ⟨h1, h2, h3⟩ := h m (by simp)
      have hms : ∀ x ∈ ms, CleanMw x := fun x hx => h x (by simp [hx])
      simp [runChain, h1, h2, h3, ih hms, applyPres, applyPosts, preTrace, postTrace]

theorem runChain_blocked (term : ResponseContext → ResponseContext)
    (a : List Mw) (m : Mw) (b : List Mw)
    (ha : ∀ x ∈ a, CleanMw x) (hm1 : m.preThrow = none) (hm2 : m.callsNext = false)
    (i : Nat) (ctx : ResponseContext) :
    runChain term (a ++ m :: b) i ctx =
      { ctx := applyPosts a (m.preF (applyPres a ctx)),
        trace := preTrace a i ++ [Ev.pre (i + a.length)] ++ postTrace a i,
        thrown := none } := by
  induction a generalizing i ctx with
  | nil => simp [runChain, hm1, hm2, applyPres, applyPosts, preTrace, postTrace]
  | cons x xs ih =>
      obtain ⟨h1, h2, h3⟩ := ha x (by simp)
      have hxs : ∀ y ∈ xs, CleanMw y := fun y hy => ha y (by simp [hy])
      have harith : i + 1 + xs.length = i + (xs.length + 1) := by omega
      simp [runChain, h1, h2, h3, ih hxs, applyPres, applyPosts, preTrace, postTrace,
        harith]

theorem runChain_preThrow (term : ResponseContext → ResponseContext)
    (a : List Mw) (m : Mw) (b : List Mw) (e : Value)
    (ha : ∀ x ∈ a, CleanMw x) (hm : m.preThrow = some e)
    (i : Nat) (ctx : ResponseContext) :
    runChain term (a ++ m :: b) i ctx =
      { ctx := m.preF (applyPres a ctx),
        trace := preTrace a i ++ [Ev.pre (i + a.length)],
        thrown := some e } := by
  induction a generalizing i ctx with
  | nil => simp [runChain, hm, applyPres, preTrace]
  | cons x xs ih =>
      obtain ⟨h1, h2, h3⟩ := ha x (by simp)
      have hxs : ∀ y ∈ xs, CleanMw y := fun y hy => ha y (by simp [hy])
      have harith : i + 1 + xs.length = i + (xs.length + 1) := by omega
      simp [runChain, h1, h2, h3, ih hxs, applyPres, preTrace, harith]

theorem runChain_postThrow (term : ResponseContext → ResponseContext)
    (a : List Mw) (m : Mw) (b : List Mw) (e : Value)
    (ha : ∀ x ∈ a, CleanMw x) (hb : ∀ x ∈ b, CleanMw x)
    (hm1 : m.preThrow = none) (hm2 : m.callsNext = true) (hm3 : m.postThrow = some e)
    (i : Nat) (ctx : ResponseContext) :
    runChain term (a ++ m :: b) i ctx =
      { ctx := m.postF (applyPosts b (term (applyPres b (m.preF (applyPres a ctx))))),
        trace := preTrace a i ++ [Ev.pre (i + a.length)] ++
          preTrace b (i + a.length + 1) ++ [Ev.term] ++
          postTrace b (i + a.length + 1) ++ [Ev.post (i + a.length)],
        thrown := some e } := by
  induction a generalizing i ctx with
  | nil =>
      simp [runChain, hm1, hm2, hm3, runChain_clean term b hb, applyPres, preTrace]
  | cons x xs ih =>
      obtain ⟨h1, h2, h3⟩ := ha x (by simp)
      have hxs : ∀ y ∈ xs, CleanMw y := fun y hy => ha y (by simp [hy])
      have harith : i + 1 + xs.length = i + (xs.length + 1) := by omega
      simp [runChain, h1, h2, h3, ih hxs, applyPres, preTrace, harith]

theorem handleRequest_status (check : Value → Bool) (svc : RegService) (req : Request)
    (c : ResponseContext) :
    (handleRequest check svc req c).status = some ResponseStatus.OK := by
  cases h : lookupMethod svc.methods req.methodName with
  | none => simp [handleRequest, h]
  | some f =>
      cases hf : f (req.args.getD []) { c with status := some ResponseStatus.OK } with
      | error e => simp [handleRequest, h, hf]
      | ok v => by_cases hv : check v <;> simp [handleRequest, h, hf, hv]

theorem runChain_status (term : ResponseContext → ResponseContext)
    (hterm : ∀ c, (term c).status = some ResponseStatus.OK)
    (mws : List Mw) (h : ∀ m ∈ mws, StatusPreserving m)
    (i : Nat) (ctx : ResponseContext) :
    (runChain term mws i ctx).ctx.status = ctx.status ∨
      (runChain term mws i ctx).ctx.status = some ResponseStatus.OK := by
  induction mws generalizing i ctx with
  | nil => right; simp [runChain, hterm]
  | cons m ms ih =>
      obtain ⟨hp, hq⟩ := h m (by simp)
      have hms : ∀ x ∈ ms, StatusPreserving x := fun x hx => h x (by simp [hx])
      cases hpt : m.preThrow with
      | some e => left; simp [runChain, hpt, hp]
      | none =>
          cases hcn : m.callsNext with
          | false => left; simp [runChain, hpt, hcn, hp]
          | true =>
              have hrec := ih hms (i + 1) (m.preF ctx)
              rw [hp ctx] at hrec
              cases hth : (runChain term ms (i + 1) (m.preF ctx)).thrown with
              | some e =>
                  simpa [runChain, hpt, hcn, hth] using hrec
              | none =>
                  cases hptw : m.postThrow with
                  | some e' =>
                      simpa [runChain, hpt, hcn, hth, hptw, hq] using hrec
                  | none =>
                      simpa [runChain, hpt, hcn, hth, hptw, hq] using hrec

theorem term_not_mem_preTrace (mws : List Mw) (i : Nat) : Ev.term ∉ preTrace mws i := by
  induction mws generalizing i with
  | nil => simp [preTrace]
  | cons m ms ih => simp [preTrace, ih]

theorem term_not_mem_postTrace (mws : List Mw) (i : Nat) : Ev.term ∉ postTrace mws i := by
  induction mws generalizing i with
  | nil => simp [postTrace]
  | cons m ms ih => simp [postTrace, ih]

theorem preTrace_eq_range (mws : List Mw) (i : Nat) :
    preTrace mws i = (List.range mws.length).map fun k => Ev.pre (i + k) := by
  induction mws generalizing i with
  | nil => simp [preTrace]
  | cons m ms ih =>
      rw [preTrace, ih, List.length_cons, List.range_succ_eq_map, List.map_cons,
        List.map_map]
      congr 1
      apply List.map_congr_left
      intro k _
      simp only [Function.comp_apply]
      congr 1
      omega

theorem postTrace_eq_range (mws : List Mw) (i : Nat) :
    postTrace mws i = ((List.range mws.length).map fun k => Ev.post (i + k)).reverse := by
  induction mws generalizing i with
  | nil => simp [postTrace]
  | cons m ms ih =>
      rw [postTrace, ih, List.length_cons, List.range_succ_eq_map, List.map_cons,
        List.reverse_cons, List.map_map]
      congr 2
      apply List.map_congr_left
      intro k _
      simp only [Function.comp_apply]
      congr 1
      omega

theorem applyPres_id (mws : List Mw) (h : ∀ m ∈ mws, InertMw m) (c : ResponseContext) :
    applyPres mws c = c := by
  induction mws generalizing c with
  | nil => rfl
  | cons m ms ih =>
      obtain ⟨hp, _⟩ := h m (by simp)
      have hms : ∀ x ∈ ms, InertMw x := fun x hx => h x (by simp [hx])
      simp [applyPres, hp, ih hms]

theorem applyPosts_id (mws : List Mw) (h : ∀ m ∈ mws, InertMw m) (c : ResponseContext) :
    applyPosts mws c = c := by
  induction mws generalizing c with
  | nil => rfl
  | cons m ms ih =>
      obtain ⟨_, hq⟩ := h m (by simp)
      have hms : ∀ x ∈ ms, InertMw x := fun x hx => h x (by simp [hx])
      simp [applyPosts, hq, ih hms]

theorem invoke_noMatch (serviceMap : ServiceMap) (mws : List Mw) (check : Value → Bool)
    (req : Request) (h : matchService serviceMap req = none) :
    invokeComposeChainRequest serviceMap mws check req =
      { ctx := { request := req, status := some ResponseStatus.SERVICE_NOT_FOUND,
                 body := { res := none, err := some (Value.verr (serviceNotFoundMsg req)) } },
        trace := [] } := by
  simp [invokeComposeChainRequest, h, ResponseContext.new]

theorem invoke_matched_noThrow (serviceMap : ServiceMap) (mws : List Mw)
    (check : Value → Bool) (req : Request) (svc : RegService)
    (h : matchService serviceMap req = some svc)
    (hth : (runChain (handleRequest check svc req) mws 0 (ResponseContext.new req)).thrown
      = none) :
    invokeComposeChainRequest serviceMap mws check req =
      { ctx := (runChain (handleRequest check svc req) mws 0 (ResponseContext.new req)).ctx,
        trace :=
          (runChain (handleRequest check svc req) mws 0 (ResponseContext.new req)).trace } := by
  simp [invokeComposeChainRequest, h, hth]

theorem invoke_matched_throw (serviceMap : ServiceMap) (mws : List Mw)
    (check : Value → Bool) (req : Request) (svc : RegService) (e : Value)
    (h : matchService serviceMap req = some svc)
    (hth : (runChain (handleRequest check svc req) mws 0 (ResponseContext.new req)).thrown
      = some e) :
    invokeComposeChainRequest serviceMap mws check req =
      { ctx :=
          { (runChain (handleRequest check svc req) mws 0 (ResponseContext.new req)).ctx with
            status := some ResponseStatus.SERVER_ERROR,
            body :=
              { (runChain (handleRequest check svc req) mws 0
                  (ResponseContext.new req)).ctx.body with err := some e } },
        trace :=
          (runChain (handleRequest check svc req) mws 0 (ResponseContext.new req)).trace } := by
  simp [invokeComposeChainRequest, h, hth]

theorem matchService_version_none (serviceMap : ServiceMap) (req : Request)
    (h : req.attachment.version = none) : matchService serviceMap req = none := by
  unfold matchService
  cases mapGet serviceMap req.attachment.path with
  | none => rfl
  | some svc => simp [h]

theorem matchService_some_of (serviceMap : ServiceMap) (req : Request) (svc : RegService)
    (h1 : mapGet serviceMap req.attachment.path = some svc)
    (h2 : (lookupMethod svc.methods req.methodName).isSome)
    (h3 : svc.group = req.attachment.group.getD "")
    (h4 : req.attachment.version = some svc.version) :
    matchService serviceMap req = some svc := by
  simp [matchService, h1, h2, h3, h4, Option.isNone_iff_eq_none]
  cases hl : lookupMethod svc.methods req.methodName with
  | none => rw [hl] at h2; simp at h2
  | some f => simp

theorem mapGet_mapSet_self (m : ServiceMap) (k : String) (v : RegService) :
    mapGet (mapSet m k v) k = some v := by
  induction m with
  | nil => simp [mapSet, mapGet]
  | cons p rest ih =>
      by_cases hk : p.1 = k
      · simp [mapSet, mapGet, hk]
      · simp [mapSet, mapGet, hk, ih]

theorem matchService_none_of (serviceMap : ServiceMap) (req : Request)
    (h : mapGet serviceMap req.attachment.path = none ∨
      ∃ svc, mapGet serviceMap req.attachment.path = some svc ∧
        (lookupMethod svc.methods req.methodName = none ∨
         svc.group ≠ req.attachment.group.getD "" ∨
         some svc.version ≠ req.attachment.version)) :
    matchService serviceMap req = none := by
  unfold matchService
  rcases h with h | ⟨svc, hsvc, hc⟩
  · simp [h]
  · simp only [hsvc]
    rcases hc with hc | hc | hc
    · simp [hc]
    · simp [hc]
    · simp [hc]

/-- The "hi world" sample handler from the spec's scenario. -/
def sampleMethod : Method := fun args _ctx =>
  match args with
  | [Value.vstr name] => Except.ok (Value.vstr ("hi " ++ name))
  | _ => Except.ok Value.vnull

/-- The spec's scenario descriptor `{interface: "com.foo.Bar", methods: {hello}}`. -/
def sampleService : IDubboService :=
  { dubboInterface := "com.foo.Bar", group := none, version := none,
    methods := [("hello", sampleMethod)] }

/-- A routing table holding the normalized sample service. -/
def sampleMap : ServiceMap := [("com.foo.Bar", normalizeService sampleService)]

/-- The spec's scenario request for `hello("world")`. -/
def sampleRequest : Request :=
  { methodName := "hello",
    args := some [Value.vstr "world"],
    attachment := { path := "com.foo.Bar", group := none, version := some "0.0.0" } }

/-- A wire-type validator that accepts every value. -/
def goodCheck : Value → Bool := fun _ => true

/-- A wire-type validator that rejects every value. -/
def badCheck : Value → Bool := fun _ => false

/-- A sample environment for URL building. -/
def sampleEnv : UrlEnv :=
  { ipAddr := "10.0.0.1", port := 20880, pid := 4321, timestamp := 1700000000000 }

/-- C1: a request whose (path, method, group, version) matches no
registered descriptor — no descriptor for the path, or the method is
undefined, or the group (request side defaulted to "") or version
differs — is dispatched to status SERVICE_NOT_FOUND with a descriptive
error naming path, method, group and version, returning immediately: no
middleware and no service method runs (empty stage trace). -/
theorem C1_noMatch_service_not_found (serviceMap : ServiceMap) (mws : List Mw)
    (check : Value → Bool) (req : Request)
    (h : mapGet serviceMap req.attachment.path = none ∨
      ∃ svc, mapGet serviceMap req.attachment.path = some svc ∧
        (lookupMethod svc.methods req.methodName = none ∨
         svc.group ≠ req.attachment.group.getD "" ∨
         some svc.version ≠ req.attachment.version)) :
    (invokeComposeChainRequest serviceMap mws check req).ctx.status =
        some ResponseStatus.SERVICE_NOT_FOUND ∧
    (invokeComposeChainRequest serviceMap mws check req).ctx.body.err =
        some (Value.verr (serviceNotFoundMsg req)) ∧
    (invokeComposeChainRequest serviceMap mws check req).ctx.body.res = none ∧
    (invokeComposeChainRequest serviceMap mws check req).trace = [] := by
  have hm := matchService_none_of serviceMap req h
  simp [invoke_noMatch serviceMap mws check req hm]

/-- Witness for C1: the spec's second scenario — the sample request sent
with `attachment.group = "v2"` against the registered group `""` is
answered with SERVICE_NOT_FOUND and an empty stage trace. -/
theorem C1_noMatch_service_not_found_witness :
    (invokeComposeChainRequest sampleMap []
        goodCheck
        { sampleRequest with attachment :=
            { sampleRequest.attachment with group := some "v2" } }).ctx.status =
      some ResponseStatus.SERVICE_NOT_FOUND ∧
    (invokeComposeChainRequest sampleMap []
        goodCheck
        { sampleRequest with attachment :=
            { sampleRequest.attachment with group := some "v2" } }).ctx.body.err =
      some (Value.verr (serviceNotFoundMsg
        { sampleRequest with attachment :=
            { sampleRequest.attachment with group := some "v2" } })) ∧
    (invokeComposeChainRequest sampleMap []
        goodCheck
        { sampleRequest with attachment :=
            { sampleRequest.attachment with group := some "v2" } }).ctx.body.res = none ∧
    (invokeComposeChainRequest sampleMap []
        goodCheck
        { sampleRequest with attachment :=
            { sampleRequest.attachment with group := some "v2" } }).trace = [] :=
  C1_noMatch_service_not_found sampleMap [] goodCheck _
    (Or.inr ⟨normalizeService sampleService, rfl, Or.inr (Or.inl (by decide))⟩)

/-- C7: `use` with a non-callable argument fails with the TypeError
"middleware must be a function" (leaving the caller's middleware list
untouched, since no new list is produced), and with a callable argument
appends it at the end of the registration list. -/
theorem C7_use_append_or_type_error (mws : List Mw) (v : Value) (m : Mw) :
    use mws (UseArg.notFn v) = Except.error "middleware must be a function" ∧
    use mws (UseArg.fn m) = Except.ok (mws ++ [m]) :=
  ⟨rfl, rfl⟩

/-- C10: route matching is asymmetric about absent attachments — a
request with no `version` attachment can never match (every registered
descriptor's version is a string, never `undefined`) and is dispatched
to SERVICE_NOT_FOUND, while a request with no `group` attachment is
defaulted to `""` on the request side and does match a descriptor whose
group defaulted to `""`. -/
theorem C10_version_asymmetry (serviceMap : ServiceMap) (mws : List Mw)
    (check : Value → Bool) (req req' : Request) (svc : RegService)
    (hv : req.attachment.version = none)
    (h1 : mapGet serviceMap req'.attachment.path = some svc)
    (h2 : (lookupMethod svc.methods req'.methodName).isSome)
    (h3 : svc.group = "")
    (hg : req'.attachment.group = none)
    (h4 : req'.attachment.version = some svc.version) :
    matchService serviceMap req = none ∧
    (invokeComposeChainRequest serviceMap mws check req).ctx.status =
      some ResponseStatus.SERVICE_NOT_FOUND ∧
    matchService serviceMap req' = some svc := by
  have hnone := matchService_version_none serviceMap req hv
  refine ⟨hnone, ?_, ?_⟩
  · simp [invoke_noMatch serviceMap mws check req hnone]
  · exact matchService_some_of serviceMap req' svc h1 h2 (by simp [hg, h3]) h4

/-- Witness for C10: the sample request stripped of its version
attachment never matches, while the same request without a group
attachment matches the descriptor registered with defaulted group. -/
theorem C10_version_asymmetry_witness :
    matchService sampleMap
      { sampleRequest with attachment :=
          { sampleRequest.attachment with version := none } } = none ∧
    (invokeComposeChainRequest sampleMap [] goodCheck
      { sampleRequest with attachment :=
          { sampleRequest.attachment with version := none } }).ctx.status =
      some ResponseStatus.SERVICE_NOT_FOUND ∧
    matchService sampleMap sampleRequest = some (normalizeService sampleService) :=
  C10_version_asymmetry sampleMap [] goodCheck _ sampleRequest
    (normalizeService sampleService) rfl rfl rfl rfl rfl rfl

theorem invoke_matched_clean_inert (serviceMap : ServiceMap) (mws : List Mw)
    (check : Value → Bool) (req : Request) (svc : RegService)
    (hmatch : matchService serviceMap req = some svc)
    (hmw : ∀ m ∈ mws, CleanMw m ∧ InertMw m) :
    invokeComposeChainRequest serviceMap mws check req =
      { ctx := handleRequest check svc req (ResponseContext.new req),
        trace := preTrace mws 0 ++ [Ev.term] ++ postTrace mws 0 } := by
  have hclean : ∀ m ∈ mws, CleanMw m := fun m hm => (hmw m hm).1
  have hinert : ∀ m ∈ mws, InertMw m := fun m hm => (hmw m hm).2
  have hrun := runChain_clean (handleRequest check svc req) mws hclean 0
    (ResponseContext.new req)
  rw [applyPres_id mws hinert, applyPosts_id mws hinert] at hrun
  have hth : (runChain (handleRequest check svc req) mws 0
      (ResponseContext.new req)).thrown = none := by rw [hrun]
  rw [invoke_matched_noThrow serviceMap mws check req svc hmatch hth, hrun]

/-- C2: for a matched request dispatched through middlewares that call
`next` and neither throw nor touch the context, the terminal stage calls
the resolved method with exactly the request's argument sequence
followed by the context; a return value passing wire-type validation
becomes `body.res`; a thrown error or a validation failure is captured
into `body.err`; and in all three cases the final status is OK, never
SERVER_ERROR. -/
theorem C2_terminal_invocation (serviceMap : ServiceMap) (mws : List Mw)
    (check : Value → Bool) (req : Request) (svc : RegService) (f : Method)
    (hmatch : matchService serviceMap req = some svc)
    (hf : lookupMethod svc.methods req.methodName = some f)
    (hmw : ∀ m ∈ mws, CleanMw m ∧ InertMw m) :
    (∀ v, f (req.args.getD [])
          { request := req, status := some ResponseStatus.OK,
            body := { res := none, err := none } } = Except.ok v →
        check v = true →
        (invokeComposeChainRequest serviceMap mws check req).ctx.body.res = some v ∧
        (invokeComposeChainRequest serviceMap mws check req).ctx.body.err = none ∧
        (invokeComposeChainRequest serviceMap mws check req).ctx.status =
          some ResponseStatus.OK) ∧
    (∀ e, f (req.args.getD [])
          { request := req, status := some ResponseStatus.OK,
            body := { res := none, err := none } } = Except.error e →
        (invokeComposeChainRequest serviceMap mws check req).ctx.body.res = none ∧
        (invokeComposeChainRequest serviceMap mws check req).ctx.body.err = some e ∧
        (invokeComposeChainRequest serviceMap mws check req).ctx.status =
          some ResponseStatus.OK) ∧
    (∀ v, f (req.args.getD [])
          { request := req, status := some ResponseStatus.OK,
            body := { res := none, err := none } } = Except.ok v →
        check v = false →
        (invokeComposeChainRequest serviceMap mws check req).ctx.body.res = some v ∧
        (invokeComposeChainRequest serviceMap mws check req).ctx.body.err =
          some (Value.verr (req.attachment.path ++ "#" ++ req.methodName ++
            " return value not hessian type")) ∧
        (invokeComposeChainRequest serviceMap mws check req).ctx.status =
          some ResponseStatus.OK) := by
  rw [invoke_matched_clean_inert serviceMap mws check req svc hmatch hmw]
  refine ⟨?_, ?_, ?_⟩
  · intro v hv hcv
    simp [handleRequest, hf, ResponseContext.new, hv, hcv]
  · intro e he
    simp [handleRequest, hf, ResponseContext.new, he]
  · intro v hv hcv
    simp [handleRequest, hf, ResponseContext.new, hv, hcv]

/-- Witness for C2: dispatching the spec's scenario request through an
empty middleware list with an accepting validator yields
`body.res = "hi world"` with status OK. -/
theorem C2_terminal_invocation_witness :
    (invokeComposeChainRequest sampleMap [] goodCheck sampleRequest).ctx.body.res =
      some (Value.vstr "hi world") ∧
    (invokeComposeChainRequest sampleMap [] goodCheck sampleRequest).ctx.body.err = none ∧
    (invokeComposeChainRequest sampleMap [] goodCheck sampleRequest).ctx.status =
      some ResponseStatus.OK :=
  ((C2_terminal_invocation sampleMap [] goodCheck sampleRequest
      (normalizeService sampleService) sampleMethod rfl rfl (by simp)).1
    (Value.vstr "hi world") rfl rfl)

/-- C3: for a matched request run through status-preserving middlewares,
an exception escaping the composed chain yields status SERVER_ERROR with
`body.err` the thrown value; without an escaping exception the status is
never SERVER_ERROR (and a non-matching request gets SERVICE_NOT_FOUND,
not SERVER_ERROR), so the escaping-exception path is the only source of
SERVER_ERROR; and the stage trace shows that stages after the throw
point never execute, whether the throw is before or after `next`. -/
theorem C3_server_error_only_escape (serviceMap : ServiceMap) (mws : List Mw)
    (check : Value → Bool) (req : Request) (svc : RegService)
    (hmatch : matchService serviceMap req = some svc)
    (hst : ∀ m ∈ mws, StatusPreserving m) :
    (∀ e, (runChain (handleRequest check svc req) mws 0 (ResponseContext.new req)).thrown
        = some e →
      (invokeComposeChainRequest serviceMap mws check req).ctx.status =
          some ResponseStatus.SERVER_ERROR ∧
      (invokeComposeChainRequest serviceMap mws check req).ctx.body.err = some e) ∧
    ((runChain (handleRequest check svc req) mws 0 (ResponseContext.new req)).thrown
        = none →
      (invokeComposeChainRequest serviceMap mws check req).ctx.status ≠
        some ResponseStatus.SERVER_ERROR) ∧
    (∀ req', matchService serviceMap req' = none →
      (invokeComposeChainRequest serviceMap mws check req').ctx.status =
        some ResponseStatus.SERVICE_NOT_FOUND) ∧
    (∀ a m b e, mws = a ++ m :: b → (∀ x ∈ a, CleanMw x) → m.preThrow = some e →
      (invokeComposeChainRequest serviceMap mws check req).ctx.status =
          some ResponseStatus.SERVER_ERROR ∧
      (invokeComposeChainRequest serviceMap mws check req).ctx.body.err = some e ∧
      (invokeComposeChainRequest serviceMap mws check req).trace =
        preTrace a 0 ++ [Ev.pre a.length] ∧
      Ev.term ∉ (invokeComposeChainRequest serviceMap mws check req).trace) ∧
    (∀ a m b e, mws = a ++ m :: b → (∀ x ∈ a, CleanMw x) → (∀ x ∈ b, CleanMw x) →
      m.preThrow = none → m.callsNext = true → m.postThrow = some e →
      (invokeComposeChainRequest serviceMap mws check req).ctx.status =
          some ResponseStatus.SERVER_ERROR ∧
      (invokeComposeChainRequest serviceMap mws check req).ctx.body.err = some e ∧
      (invokeComposeChainRequest serviceMap mws check req).trace =
        preTrace a 0 ++ [Ev.pre a.length] ++ preTrace b (a.length + 1) ++ [Ev.term] ++
          postTrace b (a.length + 1) ++ [Ev.post a.length]) := by
  refine ⟨?_, ?_, ?_, ?_, ?_⟩
  · intro e hth
    rw [invoke_matched_throw serviceMap mws check req svc e hmatch hth]
    exact ⟨rfl, rfl⟩
  · intro hth
    rw [invoke_matched_noThrow serviceMap mws check req svc hmatch hth]
    have := runChain_status (handleRequest check svc req)
      (handleRequest_status check svc req) mws hst 0 (ResponseContext.new req)
    rcases this with h | h <;> simp_all [ResponseContext.new]
  · intro req' hnone
    simp [invoke_noMatch serviceMap mws check req' hnone]
  · intro a m b e hsplit ha hme
    subst hsplit
    have hrun := runChain_preThrow (handleRequest check svc req) a m b e ha hme 0
      (ResponseContext.new req)
    have hth : (runChain (handleRequest check svc req) (a ++ m :: b) 0
        (ResponseContext.new req)).thrown = some e := by rw [hrun]
    rw [invoke_matched_throw serviceMap (a ++ m :: b) check req svc e hmatch hth, hrun]
    refine ⟨rfl, rfl, by simp, ?_⟩
    simp [term_not_mem_preTrace]
  · intro a m b e hsplit ha hb hm1 hm2 hm3
    subst hsplit
    have hrun := runChain_postThrow (handleRequest check svc req) a m b e ha hb
      hm1 hm2 hm3 0 (ResponseContext.new req)
    have hth : (runChain (handleRequest check svc req) (a ++ m :: b) 0
        (ResponseContext.new req)).thrown = some e := by rw [hrun]
    rw [invoke_matched_throw serviceMap (a ++ m :: b) check req svc e hmatch hth, hrun]
    exact ⟨rfl, rfl, by simp⟩

/-- An inert middleware that throws before calling `next`. -/
def throwingMw (e : Value) : Mw :=
  { preF := id, preThrow := some e, callsNext := false, postF := id, postThrow := none }

/-- Witness for C3: one middleware throwing "boom" before `next`
collapses the spec's scenario request to SERVER_ERROR with the thrown
value in `body.err`; the terminal stage never runs. -/
theorem C3_server_error_only_escape_witness :
    (invokeComposeChainRequest sampleMap [throwingMw (Value.verr "boom")] goodCheck
        sampleRequest).ctx.status = some ResponseStatus.SERVER_ERROR ∧
    (invokeComposeChainRequest sampleMap [throwingMw (Value.verr "boom")] goodCheck
        sampleRequest).ctx.body.err = some (Value.verr "boom") ∧
    (invokeComposeChainRequest sampleMap [throwingMw (Value.verr "boom")] goodCheck
        sampleRequest).trace = preTrace [] 0 ++ [Ev.pre ([] : List Mw).length] ∧
    Ev.term ∉ (invokeComposeChainRequest sampleMap [throwingMw (Value.verr "boom")]
        goodCheck sampleRequest).trace :=
  (C3_server_error_only_escape sampleMap [throwingMw (Value.verr "boom")] goodCheck
      sampleRequest (normalizeService sampleService) rfl
      (by intro m hm; simp [throwingMw] at hm; subst hm;
          exact ⟨fun c => rfl, fun c => rfl⟩)).2.2.2.1
    [] (throwingMw (Value.verr "boom")) [] (Value.verr "boom") rfl (by simp) rfl

/-- C5: the chain composed for a matched request is the registered
middlewares in registration order followed by the terminal invocation
stage, with onion semantics: with every middleware calling `next`, the
trace is all pre-`next` code in registration order, then the terminal
stage, then all post-`next` code in reverse registration order; and a
middleware that never calls `next` cuts off the terminal stage and all
later middlewares, running only the earlier middlewares' post-code. -/
theorem C5_onion_composition (serviceMap : ServiceMap) (mws : List Mw)
    (check : Value → Bool) (req : Request) (svc : RegService)
    (hmatch : matchService serviceMap req = some svc) :
    ((∀ m ∈ mws, CleanMw m) →
      (invokeComposeChainRequest serviceMap mws check req).trace =
        ((List.range mws.length).map fun k => Ev.pre k) ++ [Ev.term] ++
          ((List.range mws.length).map fun k => Ev.post k).reverse) ∧
    (∀ a m b, mws = a ++ m :: b → (∀ x ∈ a, CleanMw x) →
      m.preThrow = none → m.callsNext = false →
      (invokeComposeChainRequest serviceMap mws check req).trace =
        preTrace a 0 ++ [Ev.pre a.length] ++ postTrace a 0 ∧
      Ev.term ∉ (invokeComposeChainRequest serviceMap mws check req).trace) := by
  constructor
  · intro hclean
    have hrun := runChain_clean (handleRequest check svc req) mws hclean 0
      (ResponseContext.new req)
    have hth : (runChain (handleRequest check svc req) mws 0
        (ResponseContext.new req)).thrown = none := by rw [hrun]
    rw [invoke_matched_noThrow serviceMap mws check req svc hmatch hth, hrun]
    have hpre := preTrace_eq_range mws 0
    have hpost := postTrace_eq_range mws 0
    simp only [Nat.zero_add] at hpre hpost
    simp [hpre, hpost]
  · intro a m b hsplit ha hm1 hm2
    subst hsplit
    have hrun := runChain_blocked (handleRequest check svc req) a m b ha hm1 hm2 0
      (ResponseContext.new req)
    have hth : (runChain (handleRequest check svc req) (a ++ m :: b) 0
        (ResponseContext.new req)).thrown = none := by rw [hrun]
    rw [invoke_matched_noThrow serviceMap (a ++ m :: b) check req svc hmatch hth, hrun]
    refine ⟨by simp, ?_⟩
    simp [term_not_mem_preTrace, term_not_mem_postTrace]

/-- An inert middleware that calls `next` and never throws. -/
def passThroughMw : Mw :=
  { preF := id, preThrow := none, callsNext := true, postF := id, postThrow := none }

/-- An inert middleware that completes without calling `next`. -/
def swallowMw : Mw :=
  { preF := id, preThrow := none, callsNext := false, postF := id, postThrow := none }

/-- Witness for C5: with `[passThroughMw, swallowMw]`, the first
middleware's pre-code and post-code run around the second, which blocks
the chain: the terminal stage never appears in the trace. -/
theorem C5_onion_composition_witness :
    (invokeComposeChainRequest sampleMap [passThroughMw, swallowMw] goodCheck
        sampleRequest).trace =
      preTrace [passThroughMw] 0 ++ [Ev.pre ([passThroughMw] : List Mw).length] ++
        postTrace [passThroughMw] 0 ∧
    Ev.term ∉ (invokeComposeChainRequest sampleMap [passThroughMw, swallowMw] goodCheck
        sampleRequest).trace :=
  (C5_onion_composition sampleMap [passThroughMw, swallowMw] goodCheck sampleRequest
      (normalizeService sampleService) rfl).2
    [passThroughMw] swallowMw [] rfl
    (by intro x hx; simp at hx; subst hx; exact ⟨rfl, rfl, rfl⟩) rfl rfl

/-- Counterexample to C4: in the spec's scenario with a validator that
rejects the returned value, the returned (invalid) value has already
been assigned when the validation error is thrown, so after dispatch
BOTH `body.res` and `body.err` are populated — refuting "exactly one of
body.result and body.error is meaningfully populated (never both)". -/
theorem C4_counterexample :
    (invokeComposeChainRequest sampleMap [] badCheck sampleRequest).ctx.body.res =
      some (Value.vstr "hi world") ∧
    (invokeComposeChainRequest sampleMap [] badCheck sampleRequest).ctx.body.err =
      some (Value.verr "com.foo.Bar#hello return value not hessian type") ∧
    (invokeComposeChainRequest sampleMap [] badCheck sampleRequest).ctx.status =
      some ResponseStatus.OK := by
  refine ⟨?_, ?_, ?_⟩ <;> rfl

/-- C4 (amended): once dispatch completes through middlewares that call
`next`, never throw and leave the context alone: on the no-match path
status is SERVICE_NOT_FOUND with exactly `body.err` populated; when the
terminal stage runs, status is OK with exactly one of res/err populated
on application success and on thrown errors, but on a wire-type
validation failure both the already-assigned invalid result and the
error are populated; a middleware throw gives SERVER_ERROR with exactly
`body.err` populated; and a middleware that completes without calling
`next` leaves status default/unset with neither field populated. -/
theorem C4_amended_invariant (serviceMap : ServiceMap) (mws : List Mw)
    (check : Value → Bool) (req : Request)
    (hmw : ∀ m ∈ mws, CleanMw m ∧ InertMw m) :
    (matchService serviceMap req = none →
      (invokeComposeChainRequest serviceMap mws check req).ctx.status =
          some ResponseStatus.SERVICE_NOT_FOUND ∧
      (invokeComposeChainRequest serviceMap mws check req).ctx.body.res = none ∧
      (invokeComposeChainRequest serviceMap mws check req).ctx.body.err ≠ none) ∧
    (∀ svc f, matchService serviceMap req = some svc →
      lookupMethod svc.methods req.methodName = some f →
      (∀ e, f (req.args.getD [])
            { request := req, status := some ResponseStatus.OK,
              body := { res := none, err := none } } = Except.error e →
        (invokeComposeChainRequest serviceMap mws check req).ctx.status =
            some ResponseStatus.OK ∧
        (invokeComposeChainRequest serviceMap mws check req).ctx.body.res = none ∧
        (invokeComposeChainRequest serviceMap mws check req).ctx.body.err = some e) ∧
      (∀ v, f (req.args.getD [])
            { request := req, status := some ResponseStatus.OK,
              body := { res := none, err := none } } = Except.ok v →
        check v = true →
        (invokeComposeChainRequest serviceMap mws check req).ctx.status =
            some ResponseStatus.OK ∧
        (invokeComposeChainRequest serviceMap mws check req).ctx.body.res = some v ∧
        (invokeComposeChainRequest serviceMap mws check req).ctx.body.err = none) ∧
      (∀ v, f (req.args.getD [])
            { request := req, status := some ResponseStatus.OK,
              body := { res := none, err := none } } = Except.ok v →
        check v = false →
        (invokeComposeChainRequest serviceMap mws check req).ctx.status =
            some ResponseStatus.OK ∧
        (invokeComposeChainRequest serviceMap mws check req).ctx.body.res = some v ∧
        (invokeComposeChainRequest serviceMap mws check req).ctx.body.err ≠ none)) ∧
    (∀ svc, matchService serviceMap req = some svc →
      (invokeComposeChainRequest serviceMap [swallowMw] check req).ctx.status = none ∧
      (invokeComposeChainRequest serviceMap [swallowMw] check req).ctx.body.res = none ∧
      (invokeComposeChainRequest serviceMap [swallowMw] check req).ctx.body.err = none) ∧
    (∀ svc e, matchService serviceMap req = some svc →
      (invokeComposeChainRequest serviceMap [throwingMw e] check req).ctx.status =
          some ResponseStatus.SERVER_ERROR ∧
      (invokeComposeChainRequest serviceMap [throwingMw e] check req).ctx.body.res = none ∧
      (invokeComposeChainRequest serviceMap [throwingMw e] check req).ctx.body.err =
          some e) := by
  refine ⟨?_, ?_, ?_, ?_⟩
  · intro hnone
    simp [invoke_noMatch serviceMap mws check req hnone]
  · intro svc f hmatch hf
    rw [invoke_matched_clean_inert serviceMap mws check req svc hmatch hmw]
    refine ⟨?_, ?_, ?_⟩
    · intro e he
      simp [handleRequest, hf, ResponseContext.new, he]
    · intro v hv hcv
      simp [handleRequest, hf, ResponseContext.new, hv, hcv]
    · intro v hv hcv
      simp [handleRequest, hf, ResponseContext.new, hv, hcv]
  · intro svc hmatch
    have hrun := runChain_blocked (handleRequest check svc req) [] swallowMw []
      (by simp) rfl rfl 0 (ResponseContext.new req)
    have hth : (runChain (handleRequest check svc req) ([] ++ swallowMw :: []) 0
        (ResponseContext.new req)).thrown = none := by rw [hrun]
    have hd := invoke_matched_noThrow serviceMap ([] ++ swallowMw :: []) check req svc
      hmatch hth
    simp only [List.nil_append] at hd hrun
    rw [hd, hrun]
    exact ⟨rfl, rfl, rfl⟩
  · intro svc e hmatch
    have hrun := runChain_preThrow (handleRequest check svc req) [] (throwingMw e) []
      e (by simp) rfl 0 (ResponseContext.new req)
    have hth : (runChain (handleRequest check svc req) ([] ++ throwingMw e :: []) 0
        (ResponseContext.new req)).thrown = some e := by rw [hrun]
    have hd := invoke_matched_throw serviceMap ([] ++ throwingMw e :: []) check req svc
      e hmatch hth
    simp only [List.nil_append] at hd hrun
    rw [hd, hrun]
    exact ⟨rfl, rfl, rfl⟩

/-- Witness for C4 (amended): the rejecting validator on the spec's
scenario populates both fields while status stays OK. -/
theorem C4_amended_invariant_witness :
    (invokeComposeChainRequest sampleMap [] badCheck sampleRequest).ctx.status =
      some ResponseStatus.OK ∧
    (invokeComposeChainRequest sampleMap [] badCheck sampleRequest).ctx.body.res =
      some (Value.vstr "hi world") ∧
    (invokeComposeChainRequest sampleMap [] badCheck sampleRequest).ctx.body.err ≠ none :=
  ((C4_amended_invariant sampleMap [] badCheck sampleRequest (by simp)).2.1
      (normalizeService sampleService) sampleMethod rfl rfl).2.2
    (Value.vstr "hi world") rfl rfl

theorem registerServicesAux_pairs (env : UrlEnv) (ss : List IDubboService) :
    ∀ m : ServiceMap, (registerServicesAux env ss m).2 =
      ss.map fun s => (s.dubboInterface, buildUrl env (normalizeService s)) := by
  induction ss with
  | nil => intro m; simp [registerServicesAux]
  | cons s rest ih => intro m; simp [registerServicesAux, ih, normalizeService]

/-- C6: a descriptor registered without explicit group/version is
normalized at registration to group "" and version "0.0.0"; the routing
table maps each interface to its (single) descriptor, a later
registration for the same interface replacing the earlier one; and
matching uses the defaulted values — a request for the defaulted
group/version matches the normalized descriptor. -/
theorem C6_registration_normalization (env : UrlEnv) (m0 : ServiceMap)
    (s s1 s2 : IDubboService) (req : Request)
    (hsame : s1.dubboInterface = s2.dubboInterface)
    (hg : s.group = none) (hv : s.version = none)
    (hpath : req.attachment.path = s.dubboInterface)
    (hgrp : req.attachment.group = none ∨ req.attachment.group = some "")
    (hver : req.attachment.version = some "0.0.0")
    (hmeth : (lookupMethod s.methods req.methodName).isSome) :
    (normalizeService s).group = "" ∧
    (normalizeService s).version = "0.0.0" ∧
    mapGet ((registerServices env [s1, s2] m0).1) s1.dubboInterface =
      some (normalizeService s2) ∧
    matchService ((registerServices env [s] m0).1) req = some (normalizeService s) := by
  refine ⟨by simp [normalizeService, hg, jsOr], by simp [normalizeService, hv, jsOr],
    ?_, ?_⟩
  · show mapGet (registerServicesAux env [s1, s2] m0).1 s1.dubboInterface = _
    simp only [registerServicesAux]
    rw [hsame]
    exact mapGet_mapSet_self _ _ _
  · apply matchService_some_of
    · show mapGet (registerServicesAux env [s] m0).1 req.attachment.path = _
      simp only [registerServicesAux]
      rw [hpath]
      exact mapGet_mapSet_self _ _ _
    · exact hmeth
    · rcases hgrp with hgrp | hgrp <;>
        simp [normalizeService, hg, jsOr, hgrp]
    · rw [hver]
      simp [normalizeService, hv, jsOr]

/-- A second registration for the sample interface carrying an explicit
version, used to exercise replacement. -/
def sampleServiceV2 : IDubboService :=
  { sampleService with version := some "2.0" }

/-- Witness for C6: registering the sample service twice (second time
with version "2.0") leaves the table mapping the interface to the later
descriptor, and the defaulted request matches the defaulted descriptor. -/
theorem C6_registration_normalization_witness :
    (normalizeService sampleService).group = "" ∧
    (normalizeService sampleService).version = "0.0.0" ∧
    mapGet ((registerServices sampleEnv [sampleService, sampleServiceV2] []).1)
        sampleService.dubboInterface = some (normalizeService sampleServiceV2) ∧
    matchService ((registerServices sampleEnv [sampleService] []).1) sampleRequest =
      some (normalizeService sampleService) :=
  C6_registration_normalization sampleEnv [] sampleService sampleService
    sampleServiceV2 sampleRequest rfl rfl rfl rfl (Or.inl rfl) rfl rfl

/-- C8: on a successful bind the registry publisher hands one batch with
`type = "provider"` and, per registered service, the pair of its
interface and the percent-encoded provider URL to the registry
transport; each URL is the encode of `dubbo://host:port/interface?` plus
the query string carrying group, version, the comma-joined method list,
side=provider, the process id, the generic/dynamic/anyhost flags, the
protocol identifier, category=providers and the publish timestamp —
exactly the spec's canonical provider URL. -/
theorem C8_registry_payload (env : UrlEnv) (services : List IDubboService)
    (m0 : ServiceMap) :
    (registerServices env services m0).2.type = "provider" ∧
    (registerServices env services m0).2.services =
      services.map (fun s => (s.dubboInterface, buildUrl env (normalizeService s))) ∧
    ∀ s : RegService, buildUrl env s = specProviderUrl env s := by
  refine ⟨rfl, ?_, fun s => rfl⟩
  show (registerServicesAux env services m0).2 = _
  exact registerServicesAux_pairs env services m0

/-- C9: a frame recognized by the heartbeat predicate only signals the
heartbeat session — it is never dispatched, never answered with a
response frame, and the session's last-activity timestamp is updated —
while a non-heartbeat frame is dispatched and answered. -/
theorem C9_heartbeat_frames (isHB : Frame → Bool) (decode : Frame → Request)
    (serviceMap : ServiceMap) (mws : List Mw) (check : Value → Bool)
    (now : Nat) (s : HeartbeatSession) (frame : Frame) :
    (isHB frame = true →
      (handleSocketFrame isHB decode serviceMap mws check now s frame).2.1 =
        [SockEff.heartbeatSignaled] ∧
      SockEff.dispatched ∉
        (handleSocketFrame isHB decode serviceMap mws check now s frame).2.1 ∧
      SockEff.wroteResponse ∉
        (handleSocketFrame isHB decode serviceMap mws check now s frame).2.1 ∧
      (handleSocketFrame isHB decode serviceMap mws check now s frame).2.2 = none ∧
      (handleSocketFrame isHB decode serviceMap mws check now s frame).1.lastActivity
        = now) ∧
    (isHB frame = false →
      SockEff.dispatched ∈
        (handleSocketFrame isHB decode serviceMap mws check now s frame).2.1 ∧
      SockEff.wroteResponse ∈
        (handleSocketFrame isHB decode serviceMap mws check now s frame).2.1 ∧
      (handleSocketFrame isHB decode serviceMap mws check now s frame).2.2 =
        some (invokeComposeChainRequest serviceMap mws check (decode frame))) := by
  constructor
  · intro h
    simp [handleSocketFrame, h, HeartbeatSession.emit]
  · intro h
    simp [handleSocketFrame, h, HeartbeatSession.setWriteTs]

/-- A sample heartbeat predicate: exactly the one-byte frame `[226]`. -/
def hbPred : Frame → Bool := fun f => decide (f = [226])

/-- A sample decoder mapping every frame to the scenario request. -/
def sampleDecode : Frame → Request := fun _ => sampleRequest

/-- Witness for C9: the heartbeat frame `[226]` only signals the session
and refreshes its timestamp. -/
theorem C9_heartbeat_frames_witness :
    (handleSocketFrame hbPred sampleDecode sampleMap [] goodCheck 42
        { lastActivity := 0 } [226]).2.1 = [SockEff.heartbeatSignaled] ∧
    (handleSocketFrame hbPred sampleDecode sampleMap [] goodCheck 42
        { lastActivity := 0 } [226]).2.2 = none ∧
    (handleSocketFrame hbPred sampleDecode sampleMap [] goodCheck 42
        { lastActivity := 0 } [226]).1.lastActivity = 42 :=
  have h := (C9_heartbeat_frames hbPred sampleDecode sampleMap [] goodCheck 42
    { lastActivity := 0 } [226]).1 (by decide)
  ⟨h.1, h.2.2.2.1, h.2.2.2.2⟩

end DubboSrv
